import Mathlib

/-!
Verification of the Coach-Ty daily-updates pipeline
(`process_data.py` and `process_hs_schedule.py`).

The Python code is shallowly embedded: a data table is a list of column
names together with rows modelled as total functions from column name to
string value; timestamps are integers (seconds since the Unix epoch, so a
day is 86400); timestamp parsing (`pd.to_datetime` with coerce) is an
abstract parameter `parse : String -> Option Int` since its calendar logic
is external to the repository.  All definitions follow the source line by
line; column-name strings containing an apostrophe are written with the
escape `\x27` for that character.
-/

set_option maxHeartbeats 2000000

namespace CoachTy

/-- Python whitespace characters recognised by `str.strip()`. -/
def isPySpace (c : Char) : Bool :=
  c = ' ' || c = '\t' || c = '\n' || c = '\r' || c = '\x0b' || c = '\x0c'

/-- Drop trailing characters satisfying `p`. -/
def dropTrailing (p : Char → Bool) (cs : List Char) : List Char :=
  (cs.reverse.dropWhile p).reverse

/-- Python `str.strip()`: remove leading and trailing whitespace. -/
def pyStrip (s : String) : String :=
  ⟨dropTrailing isPySpace (s.data.dropWhile isPySpace)⟩

/-- `_normalize_str` from `process_data.py`: `str(x).strip()`. -/
def normalize_str (s : String) : String := pyStrip s

/-- Python `str.lower()` (ASCII range; the embedded data is ASCII). -/
def pyToLower (s : String) : String := ⟨s.data.map Char.toLower⟩

/-- `MONTH_TO_COLOR` from `process_data.py` lines 15-22: the month-indexed
contact-sheet color table (Python dict; indexing a month outside 1..12 is a
`KeyError`, modelled by `none`). -/
def MONTH_TO_COLOR : Nat → Option String := fun m =>
  match m with
  | 1 => some "Navy"
  | 7 => some "Navy"
  | 2 => some "Columbia Blue"
  | 8 => some "Columbia Blue"
  | 3 => some "Anthracite"
  | 9 => some "Anthracite"
  | 4 => some "Navy"
  | 10 => some "Navy"
  | 5 => some "Columbia Blue"
  | 11 => some "Columbia Blue"
  | 6 => some "Anthracite"
  | 12 => some "Anthracite"
  | _ => none

/-- C8: the color cycle is total on months 1..12: months 1 and 7 map to
Navy, every month in 1..12 maps to exactly one of the three colors
Navy, Columbia Blue, Anthracite, and each color is used for exactly four
months. -/
theorem month_to_color_cycle :
    MONTH_TO_COLOR 1 = some "Navy" ∧ MONTH_TO_COLOR 7 = some "Navy"
  ∧ ((List.range' 1 12).all (fun m =>
        ((MONTH_TO_COLOR m).map
          (fun c => ["Navy", "Columbia Blue", "Anthracite"].contains c)).getD false)) = true
  ∧ (List.range' 1 12).countP (fun m => MONTH_TO_COLOR m == some "Navy") = 4
  ∧ (List.range' 1 12).countP (fun m => MONTH_TO_COLOR m == some "Columbia Blue") = 4
  ∧ (List.range' 1 12).countP (fun m => MONTH_TO_COLOR m == some "Anthracite") = 4 := by
  decide

/-! ## Recency classification (`add_recency_bucket`, lines 67-85) -/

/-- One day in seconds (timestamps are seconds since the Unix epoch). -/
def daySecs : Int := 86400

/-- `pd.Timestamp.normalize()`: floor a timestamp to its UTC day boundary. -/
def normalizeDay (t : Int) : Int := daySecs * Int.fdiv t daySecs

/-- The cutoff computed at lines 76-77: `today - Timedelta(days=recent_days)`
where `today = pd.Timestamp.now(tz=UTC).normalize()` and `now` stands for the
ambient current time. -/
def cutoffOf (now recent_days : Int) : Int := normalizeDay now - recent_days * daySecs

/-- Line 74: `pd.to_datetime(df[date_col].replace({"": None}), errors="coerce")`.
The empty string is replaced by a missing value first; `parse` abstracts the
calendar parser, returning `none` on unparseable text (coerce). -/
def dtOf (parse : String → Option Int) (s : String) : Option Int :=
  if s = "" then none else parse s

/-- Lines 79-81: the distance bucket.  `dist` starts at `"far"`, rows with a
missing timestamp become `"never"`, rows with `dt >= cutoff` become
`"recent"` (a missing value never compares `>= cutoff`). -/
def distOf (now recent_days : Int) (dt : Option Int) : String :=
  match dt with
  | none => "never"
  | some t => if t ≥ cutoffOf now recent_days then "recent" else "far"

/-- `add_recency_bucket` (lines 67-85) restricted to the date column it
reads and the two columns it writes: for each value of `df[date_col]` it
produces the pair of new columns `(<pre>_dt, <pre>_distance)`.  The ambient
`pd.Timestamp.now` of line 76 is the explicit argument `now`. -/
def add_recency_bucket (parse : String → Option Int) (now : Int)
    (recent_days : Int) (dateVals : List String) : List (Option Int × String) :=
  dateVals.map (fun s => (dtOf parse s, distOf now recent_days (dtOf parse s)))

/-- C2: a timestamp exactly equal to `cutoff = normalize_to_day(now) -
recent_days` days classifies as `recent` (inclusive lower bound), a timestamp
one day before the cutoff classifies as `far`, and a missing or unparseable
timestamp classifies as `never` (no error is possible: the embedding is a
total function). -/
theorem recency_bucket_boundaries (parse : String → Option Int)
    (now recent_days : Int) (s : String) :
    ((s ≠ "" ∧ parse s = some (cutoffOf now recent_days)) →
      add_recency_bucket parse now recent_days [s]
        = [(some (cutoffOf now recent_days), "recent")])
  ∧ ((s ≠ "" ∧ parse s = some (cutoffOf now recent_days - daySecs)) →
      add_recency_bucket parse now recent_days [s]
        = [(some (cutoffOf now recent_days - daySecs), "far")])
  ∧ ((s = "" ∨ parse s = none) →
      add_recency_bucket parse now recent_days [s] = [(none, "never")]) := by
  refine ⟨fun ⟨hs, hp⟩ => ?_, fun ⟨hs, hp⟩ => ?_, fun h => ?_⟩
  · simp only [add_recency_bucket, List.map, dtOf, if_neg hs, hp, distOf]
    rw [if_pos le_rfl]
  · simp only [add_recency_bucket, List.map, dtOf, if_neg hs, hp, distOf]
    rw [if_neg]
    have : (0 : Int) < daySecs := by decide
    omega
  · rcases h with h | h
    · simp [add_recency_bucket, dtOf, h, distOf]
    · simp only [add_recency_bucket, List.map, dtOf, distOf]
      by_cases hs : s = "" <;> simp [hs, h]

/-- A concrete parser used only to instantiate theorems with hypotheses:
it recognises two fixed date strings. -/
def parseDemo : String → Option Int := fun s =>
  if s = "at-cutoff" then some (-31536000)
  else if s = "day-before" then some (-31622400)
  else none

theorem recency_bucket_boundaries_witness :
    add_recency_bucket parseDemo 0 365 ["at-cutoff"]
      = [(some (cutoffOf 0 365), "recent")]
  ∧ add_recency_bucket parseDemo 0 365 ["day-before"]
      = [(some (cutoffOf 0 365 - daySecs), "far")]
  ∧ add_recency_bucket parseDemo 0 365 [""] = [(none, "never")] := by
  refine ⟨?_, ?_, ?_⟩
  · exact (recency_bucket_boundaries parseDemo 0 365 "at-cutoff").1
      ⟨by decide, by decide⟩
  · exact (recency_bucket_boundaries parseDemo 0 365 "day-before").2.1
      ⟨by decide, by decide⟩
  · exact (recency_bucket_boundaries parseDemo 0 365 "").2.2 (Or.inl rfl)

/-! ## `sort_by_last_contacted` (lines 87-95) -/

/-- A record as seen by the ranking step: an identifying payload plus the
parsed `called_dt` column written by `add_recency_bucket` (missing = NaT). -/
structure PRec where
  id : String
  called_dt : Option Int
  deriving DecidableEq

/-- Line 94 sentinel: `pd.Timestamp("1900-01-01", tz="UTC")`, i.e. the epoch
second of 1900-01-01T00:00:00Z. -/
def SENTINEL : Int := -2208988800

/-- Line 94: `df["called_dt"].fillna(sentinel)`. -/
def sortKey (r : PRec) : Int := r.called_dt.getD SENTINEL

/-- Stable insertion (ascending by `sortKey`): an element keeps its place
before later-input elements with an equal key. -/
def insertAsc (r : PRec) : List PRec → List PRec
  | [] => [r]
  | h :: t => if sortKey h < sortKey r then h :: insertAsc r t else r :: h :: t

/-- `sort_by_last_contacted` (lines 87-95): sort ascending on the fillna
key.  A stable sort is used; stability only matters on equal keys. -/
def sort_by_last_contacted (rows : List PRec) : List PRec :=
  rows.foldr insertAsc []

/-- The `TOP_N` head selection of line 221. -/
def TOP_N : Nat := 5

/-- A record whose Last Called value parsed to 1850-01-01T00:00:00Z
(epoch second -3786825600), a valid pandas timestamp. -/
def oldRec : PRec := ⟨"called-1850", some (-3786825600)⟩

/-- A record whose Last Called value is missing (bucket `never`). -/
def neverRec : PRec := ⟨"never-called", none⟩

/-- C1: evaluating `sort_by_last_contacted` at a record set holding one
never-called record and one record contacted on 1850-01-01 puts the dated
record FIRST: the fillna sentinel is 1900-01-01, so a real parsed timestamp
older than 1900 sorts before every never-called record, contradicting the
claimed order (and the docstring `never called -> oldest call date -> most
recent call date`). -/
theorem sort_sentinel_fails_before_1900 :
    sort_by_last_contacted [neverRec, oldRec] = [oldRec, neverRec]
  ∧ (sort_by_last_contacted [neverRec, oldRec]).take TOP_N
      = [oldRec, neverRec] := by
  constructor <;> decide

/-! ## The table model and `apply_filters` (lines 41-64) -/

/-- A data table: ordered column names, and rows modelled as total
functions from column name to string value (a cell of a column not in
`cols` is never read by the embedded code paths). -/
structure Df where
  cols : List String
  rows : List (String → String)

/-- Case-sensitive substring test on character lists. -/
def isSubList (needle : List Char) : List Char → Bool
  | [] => needle.isEmpty
  | c :: rest => needle.isPrefixOf (c :: rest) || isSubList needle rest

/-- The operator names accepted by `apply_filters` (lines 52-61). -/
def supportedOps : List String := ["eq", "ne", "contains", "notnull", "null"]

/-- One operator application of lines 50-61, on the already-normalized cell
value `s`.  `contains` is pandas `str.contains(case=False)`; its pattern is
a regex in pandas, which coincides with a case-insensitive substring test
for patterns free of regex metacharacters.  An unsupported operator never
reaches this function (see `firstBadOp`). -/
def evalOpB (op val s : String) : Bool :=
  let o := pyToLower op
  if o = "eq" then pyToLower s == pyToLower val
  else if o = "ne" then pyToLower s != pyToLower val
  else if o = "contains" then isSubList (pyToLower val).data (pyToLower s).data
  else if o = "notnull" then decide (0 < s.length)
  else if o = "null" then s.length == 0
  else false

/-- The first unsupported operator reached by the loop of lines 45-63, in
rule order: a rule whose column is absent is skipped whole (`continue` at
line 48 fires before any operator of that rule is examined). -/
def firstBadOp (cols : List String)
    (rules : List (String × List (String × String))) : Option String :=
  rules.findSome? (fun rule =>
    if rule.1 ∈ cols then
      rule.2.findSome? (fun c =>
        if pyToLower c.1 ∈ supportedOps then none else some (pyToLower c.1))
    else none)

/-- The conjunction mask of lines 44-63 for one row: every rule must hold;
a rule whose column is absent contributes `False` (line 47). -/
def rowPasses (cols : List String)
    (rules : List (String × List (String × String)))
    (r : String → String) : Bool :=
  rules.all (fun rule =>
    if rule.1 ∈ cols then
      rule.2.all (fun c => evalOpB c.1 c.2 (normalize_str (r rule.1)))
    else false)

/-- `apply_filters` (lines 41-64).  Rules are `(column, conditions)` pairs
in dict insertion order, conditions are `(operator, value)` pairs.  An
unsupported operator raises `ValueError` (modelled as `Except.error` with
the exact message); otherwise the rows satisfying every rule are kept. -/
def apply_filters (df : Df)
    (rules : List (String × List (String × String))) : Except String Df :=
  if rules = [] then .ok df
  else
    match firstBadOp df.cols rules with
    | some o => .error ("Unsupported filter op: " ++ o)
    | none => .ok ⟨df.cols, df.rows.filter (rowPasses df.cols rules)⟩

/-- A row all of whose cells read `"x"`. -/
def rowX : String → String := fun _ => "x"

/-- A row all of whose cells read the empty string. -/
def rowEmpty : String → String := fun _ => ""

/-- A one-row table with single column `A`. -/
def dfA : Df := ⟨["A"], [rowX]⟩

/-- A rule set holding a rule on the absent column `B` and a rule with an
unsupported operator on the present column `A`. -/
def rulesBadOp : List (String × List (String × String)) :=
  [("B", [("eq", "y")]), ("A", [("bogus", "z")])]

/-- C6 counterexample: a rule references the absent column `B`, yet
`apply_filters` does not return the empty record set — another rule's
unsupported operator raises `ValueError` instead, so the result is not the
empty set `regardless of the other rules`. -/
theorem apply_filters_absent_column_not_always_empty :
    apply_filters dfA rulesBadOp = .error "Unsupported filter op: bogus"
  ∧ ("B", [(("eq" : String), ("y" : String))]) ∈ rulesBadOp
  ∧ "B" ∉ dfA.cols := by
  refine ⟨by with_unfolding_all rfl, by decide, by decide⟩

/-- C6 amended: if some rule references a column absent from the table and
every operator of every rule whose column is present is supported, then
`apply_filters` returns the empty record set, regardless of the other
rules' columns and conditions and of any row's values. -/
theorem apply_filters_absent_column_fail_closed
    (df : Df) (rules : List (String × List (String × String)))
    (habs : ∃ rule ∈ rules, rule.1 ∉ df.cols)
    (hops : ∀ rule ∈ rules, rule.1 ∈ df.cols →
      ∀ c ∈ rule.2, pyToLower c.1 ∈ supportedOps) :
    apply_filters df rules = .ok ⟨df.cols, []⟩ := by
  obtain ⟨rule0, hmem, habs0⟩ := habs
  have hne : rules ≠ [] := by
    intro h; subst h; cases hmem
  have hbad : firstBadOp df.cols rules = none := by
    rw [firstBadOp, List.findSome?_eq_none_iff]
    intro rule hr
    by_cases hc : rule.1 ∈ df.cols
    · rw [if_pos hc, List.findSome?_eq_none_iff]
      intro c hcm
      rw [if_pos (hops rule hr hc c hcm)]
    · rw [if_neg hc]
  have hrow : ∀ r, rowPasses df.cols rules r = false := by
    intro r
    rw [rowPasses, List.all_eq_false]
    exact ⟨rule0, hmem, by rw [if_neg habs0]; exact Bool.false_ne_true⟩
  rw [apply_filters, if_neg hne, hbad]
  have : df.rows.filter (rowPasses df.cols rules) = [] := by
    rw [List.filter_eq_nil_iff]
    intro a _
    rw [hrow a]
    exact Bool.false_ne_true
  rw [this]

/-- A rule set with one supported rule on the absent column `B`. -/
def rulesAbsent : List (String × List (String × String)) :=
  [("B", [("notnull", "True")])]

theorem apply_filters_absent_column_fail_closed_witness :
    apply_filters dfA rulesAbsent = .ok ⟨dfA.cols, []⟩ :=
  apply_filters_absent_column_fail_closed dfA rulesAbsent
    ⟨("B", [("notnull", "True")]), by decide, by decide⟩
    (by decide)

/-- C9: `apply_filters` never mutates its input: whenever it returns a
record set, that set has the same columns and its row list is a sublist of
the input rows, each row kept with every field value unchanged (rows are
carried over as the very same functions).  The input table itself is
untouched, the embedding being a pure function of it. -/
theorem apply_filters_no_mutation (df : Df)
    (rules : List (String × List (String × String))) (out : Df)
    (h : apply_filters df rules = .ok out) :
    out.cols = df.cols ∧ out.rows.Sublist df.rows := by
  rw [apply_filters] at h
  by_cases hr : rules = []
  · rw [if_pos hr] at h
    injection h with h'
    subst h'
    exact ⟨rfl, List.Sublist.refl _⟩
  · rw [if_neg hr] at h
    cases hb : firstBadOp df.cols rules with
    | some o => rw [hb] at h; cases h
    | none =>
      rw [hb] at h
      injection h with h'
      subst h'
      exact ⟨rfl, List.filter_sublist _⟩

/-- A two-row table used to instantiate `apply_filters_no_mutation`. -/
def dfTwo : Df := ⟨["A"], [rowX, rowEmpty]⟩

/-- A supported `notnull` rule on the present column `A`. -/
def rulesNotnull : List (String × List (String × String)) :=
  [("A", [("notnull", "True")])]

theorem apply_filters_no_mutation_witness :
    (⟨["A"], [rowX]⟩ : Df).cols = dfTwo.cols
  ∧ List.Sublist [rowX] dfTwo.rows :=
  apply_filters_no_mutation dfTwo rulesNotnull ⟨["A"], [rowX]⟩
    (by with_unfolding_all rfl)

/-! ## `split_recruits` (`process_hs_schedule.py` lines 30-59) -/

/-- `re.search(r"\(\d{4}\)\s*$", s)`: after trailing whitespace is ignored,
the text ends with a literal `(`, exactly four digits, and `)`. -/
def hasYearTagEnd (cs : List Char) : Bool :=
  match (dropTrailing isPySpace cs).reverse with
  | ')' :: d1 :: d2 :: d3 :: d4 :: '(' :: _ =>
      d1.isDigit && d2.isDigit && d3.isDigit && d4.isDigit
  | _ => false

/-- The configured target year tag (`KEEP_YEAR`, line 19). -/
def KEEP_YEAR : String := "(2027)"

/-- Python `raw.split(",")` on character lists: split at every comma,
keeping empty fragments (`"".split(",") == [""]`). -/
def splitOnComma : List Char → List (List Char)
  | [] => [[]]
  | ',' :: rest => [] :: splitOnComma rest
  | c :: rest =>
    match splitOnComma rest with
    | [] => [[c]]
    | h :: t => (c :: h) :: t

/-- The fragment-rejoin loop of lines 44-56: fragments accumulate into
`buf` (joined with `", "`); when `buf` ends with a year tag it is emitted
stripped and reset; a non-blank leftover `buf` is emitted at end of
input. -/
def rejoinAux : String → List String → List String
  | buf, [] => if pyStrip buf = "" then [] else [pyStrip buf]
  | buf, p :: rest =>
    let buf' := if buf = "" then p else buf ++ ", " ++ p
    if hasYearTagEnd buf'.data then pyStrip buf' :: rejoinAux "" rest
    else rejoinAux buf' rest

/-- Lines 41-56 of `split_recruits`: split on `","`, strip each fragment,
greedily rejoin into recruit entries. -/
def splitRecruitsRejoin (raw : String) : List String :=
  rejoinAux "" ((splitOnComma raw.data).map (fun cs => pyStrip ⟨cs⟩))

/-- `split_recruits` (lines 30-59): blank input gives no recruits;
otherwise the rejoined entries whose stripped text ends with the target
year tag `"(2027)"` (exact suffix) are kept. -/
def split_recruits (raw : String) : List String :=
  if pyStrip raw = "" then []
  else (splitRecruitsRejoin raw).filter
    (fun r => KEEP_YEAR.data.isSuffixOf (pyStrip r).data)

/-- C3: on the input `John A. Smith (2027), Mary, Jane Doe (2026)` the
rejoin phase yields exactly the two entries `John A. Smith (2027)` and
`Mary, Jane Doe (2026)` (the fragment `Mary` is rejoined into the next
entry because it lacks a year tag); the final year filter of
`split_recruits` then keeps only the entry ending with `(2027)`; and a
leftover buffer with no year tag at end of input is still emitted as a
final entry. -/
theorem split_recruits_example :
    splitRecruitsRejoin "John A. Smith (2027), Mary, Jane Doe (2026)"
      = ["John A. Smith (2027)", "Mary, Jane Doe (2026)"]
  ∧ split_recruits "John A. Smith (2027), Mary, Jane Doe (2026)"
      = ["John A. Smith (2027)"]
  ∧ splitRecruitsRejoin "Jane Doe (2026), Trailing Fragment"
      = ["Jane Doe (2026)", "Trailing Fragment"] := by
  refine ⟨by decide, by decide, by decide⟩

/-! ## Month color filter (lines 193-198) and ambient time (C7) -/

/-- Lines 194-197: `keep_color = MONTH_TO_COLOR[datetime.now().month]`,
then keep the rows whose stripped lowercased color equals the kept color
lowercased.  The ambient `datetime.now().month` of line 195 is the explicit
argument `month`; an out-of-table month would be a `KeyError` (`none`). -/
def monthColorFilter (month : Nat) (colorCol : String) (df : Df) : Option Df :=
  match MONTH_TO_COLOR month with
  | none => none
  | some keep =>
    some ⟨df.cols, df.rows.filter
      (fun r => pyToLower (pyStrip (r colorCol)) == pyToLower keep)⟩

/-- A parser recognising only the date string `2025-06-01`
(epoch second 1748736000). -/
def parse25 : String → Option Int := fun s =>
  if s = "2025-06-01" then some 1748736000 else none

/-- A roster row whose every cell reads `Navy`. -/
def navyRow : String → String := fun _ => "Navy"

/-- A one-row table with a Contact Sheet Color column. -/
def dfNavy : Df := ⟨["Contact Sheet Color"], [navyRow]⟩

/-- C7: the current time is NOT an explicit input of the code: line 76
reads `pd.Timestamp.now` inside `add_recency_bucket` and line 195 reads
`datetime.now().month` for the color filter.  Evaluating the embedding (in
which that ambient read is surfaced as a parameter) at two ambient times on
otherwise identical explicit inputs yields different outputs: a record last
called 2025-06-01 classifies `recent` at ambient time 2025-06-01 but `far`
400 days later, and the Navy roster row survives the month filter in
January but not in February. -/
theorem ambient_time_changes_outputs :
    add_recency_bucket parse25 1748736000 365 ["2025-06-01"]
      = [(some 1748736000, "recent")]
  ∧ add_recency_bucket parse25 1783296000 365 ["2025-06-01"]
      = [(some 1748736000, "far")]
  ∧ (monthColorFilter 1 "Contact Sheet Color" dfNavy).map (fun d => d.rows.length)
      = some 1
  ∧ (monthColorFilter 2 "Contact Sheet Color" dfNavy).map (fun d => d.rows.length)
      = some 0 := by
  refine ⟨by decide, by decide, by decide, by decide⟩

/-! ## The name-to-color lookup (lines 154-160) -/

/-- Line 157: `row["Full Name"].strip().lower()`, the lookup key of a
roster row. -/
def nameKey (r : String → String) : String := pyToLower (pyStrip (r "Full Name"))

/-- Lines 156-160: one iteration of the lookup-building loop.  A row whose
key or stripped color is empty is skipped (`if name and color`); otherwise
the dict entry for the key is set, overwriting any earlier row's entry. -/
def insertNameColor (colorCol : String) (acc : String → Option String)
    (r : String → String) : String → Option String :=
  if nameKey r = "" ∨ pyStrip (r colorCol) = "" then acc
  else fun k => if k = nameKey r then some (pyStrip (r colorCol)) else acc k

/-- Lines 154-160: `name_to_color`, built by iterating over the roster rows
in order, as a lookup function (`dict.get`: `none` when the key is
absent). -/
def buildNameToColor (colorCol : String)
    (rows : List (String → String)) : String → Option String :=
  rows.foldl (insertNameColor colorCol) (fun _ => none)

/-- The rows the claim says contribute to the lookup at `key`: nonempty
trimmed name, nonempty trimmed color, matching lowercased trimmed name. -/
def rowMatchesKey (colorCol key : String) (r : String → String) : Bool :=
  !(nameKey r == "") && !(pyStrip (r colorCol) == "") && (nameKey r == key)

lemma insertNameColor_skip (colorCol : String) (acc : String → Option String)
    (r : String → String) (k : String)
    (h : nameKey r = "" ∨ pyStrip (r colorCol) = "") :
    insertNameColor colorCol acc r k = acc k := by
  rw [insertNameColor, if_pos h]

lemma insertNameColor_other (colorCol : String) (acc : String → Option String)
    (r : String → String) (k : String)
    (hgood : ¬(nameKey r = "" ∨ pyStrip (r colorCol) = ""))
    (hk : ¬(k = nameKey r)) :
    insertNameColor colorCol acc r k = acc k := by
  rw [insertNameColor, if_neg hgood]
  exact if_neg hk

lemma insertNameColor_hit (colorCol : String) (acc : String → Option String)
    (r : String → String) (k : String)
    (hgood : ¬(nameKey r = "" ∨ pyStrip (r colorCol) = ""))
    (hk : k = nameKey r) :
    insertNameColor colorCol acc r k = some (pyStrip (r colorCol)) := by
  rw [insertNameColor, if_neg hgood]
  exact if_pos hk

lemma buildNameToColor_foldl (colorCol key : String) :
    ∀ (rows : List (String → String)) (acc : String → Option String),
      (rows.foldl (insertNameColor colorCol) acc) key
        = match (rows.filter (rowMatchesKey colorCol key)).getLast? with
          | some r => some (pyStrip (r colorCol))
          | none => acc key := by
  intro rows
  induction rows with
  | nil => intro acc; rfl
  | cons r rest ih =>
    intro acc
    rw [List.foldl_cons, ih (insertNameColor colorCol acc r), List.filter_cons]
    by_cases hm : rowMatchesKey colorCol key r = true
    · rw [if_pos hm]
      have hgood : ¬(nameKey r = "" ∨ pyStrip (r colorCol) = "") := by
        simp only [rowMatchesKey, Bool.and_eq_true, Bool.not_eq_true',
          beq_eq_false_iff_ne, ne_eq] at hm
        tauto
      have hkey : key = nameKey r := by
        simp only [rowMatchesKey, Bool.and_eq_true, beq_iff_eq] at hm
        exact hm.2.symm
      cases hfe : rest.filter (rowMatchesKey colorCol key) with
      | nil =>
        simp only [List.getLast?_nil, List.getLast?_singleton]
        exact insertNameColor_hit colorCol acc r key hgood hkey
      | cons x t =>
        rw [List.getLast?_cons_cons]
        cases hl : (x :: t).getLast? with
        | none =>
          rw [List.getLast?_eq_none_iff] at hl
          cases hl
        | some r' => rfl
    · rw [if_neg hm]
      cases hl : (rest.filter (rowMatchesKey colorCol key)).getLast? with
      | some r' => rfl
      | none =>
        show insertNameColor colorCol acc r key = acc key
        by_cases hgood : nameKey r = "" ∨ pyStrip (r colorCol) = ""
        · exact insertNameColor_skip colorCol acc r key hgood
        · refine insertNameColor_other colorCol acc r key hgood ?_
          intro hk
          apply hm
          simp only [rowMatchesKey, Bool.and_eq_true, Bool.not_eq_true',
            beq_eq_false_iff_ne, ne_eq, beq_iff_eq]
          push_neg at hgood
          exact ⟨⟨hgood.1, hgood.2⟩, hk.symm⟩

/-- C10: the lookup built for schedule enrichment excludes every roster row
whose trimmed Full Name or trimmed color is empty, and when several rows
share a lowercased trimmed full name, the stored color is the stripped
color of the LAST such row in roster order: the lookup at any key equals
the last matching valid row's color (and is empty when no valid row
matches). -/
theorem name_to_color_last_row_wins (colorCol : String)
    (rows : List (String → String)) (key : String) :
    buildNameToColor colorCol rows key
      = ((rows.filter (rowMatchesKey colorCol key)).getLast?).map
          (fun r => pyStrip (r colorCol)) := by
  rw [buildNameToColor, buildNameToColor_foldl]
  cases (rows.filter (rowMatchesKey colorCol key)).getLast? with
  | some r => rfl
  | none => rfl

/-! ## Schedule enrichment (lines 163-191) -/

/-- Python `raw.split(", ")` on character lists: split at each
non-overlapping occurrence of the two-character separator, scanning left
to right. -/
def splitOnCommaSpace : List Char → List (List Char)
  | [] => [[]]
  | ',' :: ' ' :: rest => [] :: splitOnCommaSpace rest
  | c :: rest =>
    match splitOnCommaSpace rest with
    | [] => [[c]]
    | h :: t => (c :: h) :: t

/-- Line 172: `re.sub(r"\s*\(\d{4}\)\s*$", "", recruit).strip().lower()`:
drop a trailing year tag when present, then strip and lowercase. -/
def cleanRecruit (s : String) : String :=
  let t := dropTrailing isPySpace s.data
  if hasYearTagEnd s.data then pyToLower (pyStrip ⟨t.take (t.length - 6)⟩)
  else pyToLower (pyStrip s)

/-- One enriched game record (lines 178-185).  The Python `counts` dict has
the fixed keys Navy, Columbia Blue, Anthracite, modelled as the three
counter fields. -/
structure Game where
  date : String
  school1 : String
  school2 : String
  recruits : List String
  navy : Nat
  cb : Nat
  anth : Nat
  total : Nat
  deriving DecidableEq

/-- Lines 170-176: one recruit of the split list.  The accumulator is
`(navy, cb, anth, matched)`; a recruit whose cleaned name resolves to one
of the three counted colors bumps that counter and is appended (raw) to the
matched list; anything else is skipped. -/
def tally (lookup : String → Option String)
    (acc : Nat × Nat × Nat × List String) (recruit : String) :
    Nat × Nat × Nat × List String :=
  match lookup (cleanRecruit recruit) with
  | none => acc
  | some c =>
    if c = "Navy" then (acc.1 + 1, acc.2.1, acc.2.2.1, acc.2.2.2 ++ [recruit])
    else if c = "Columbia Blue" then (acc.1, acc.2.1 + 1, acc.2.2.1, acc.2.2.2 ++ [recruit])
    else if c = "Anthracite" then (acc.1, acc.2.1, acc.2.2.1 + 1, acc.2.2.2 ++ [recruit])
    else acc

/-- Lines 165-185: build one game record from a schedule row.  `total` is
`sum(counts.values())` (line 177). -/
def mkGame (lookup : String → Option String) (g : String → String) : Game :=
  let raw := pyStrip (g "Recruits_2027")
  let res := if raw = "" then ((0 : Nat), (0 : Nat), (0 : Nat), ([] : List String))
    else (splitOnCommaSpace raw.data).foldl
      (fun acc cs => tally lookup acc ⟨cs⟩) (0, 0, 0, [])
  { date := g "Date_NY"
    school1 := g "School_1"
    school2 := g "School_2"
    recruits := res.2.2.2
    navy := res.1
    cb := res.2.1
    anth := res.2.2.1
    total := res.1 + res.2.1 + res.2.2.1 }

/-- Lines 163-185: the enrichment loop over the processed schedule rows. -/
def enrichGames (lookup : String → Option String)
    (schedRows : List (String → String)) : List Game :=
  schedRows.map (mkGame lookup)

/-- Stable descending insertion by `total`: a game is placed before the
first later-input game whose total is not larger, so equal totals keep
input order. -/
def insertGameDesc (g : Game) : List Game → List Game
  | [] => [g]
  | h :: t => if g.total < h.total then h :: insertGameDesc g t else g :: h :: t

/-- Line 188: `games.sort(key=total, reverse=True)`.  Python `list.sort`
is a stable sort and stays stable under `reverse=True`; a stable sort by a
key is unique, so the insertion sort is extensionally the code's sort. -/
def sortGamesDesc (games : List Game) : List Game :=
  games.foldr insertGameDesc []

lemma mem_insertGameDesc {x g : Game} : ∀ {l : List Game},
    x ∈ insertGameDesc g l ↔ x = g ∨ x ∈ l := by
  intro l
  induction l with
  | nil => simp [insertGameDesc]
  | cons h t ih =>
    rw [insertGameDesc]
    by_cases hlt : g.total < h.total
    · rw [if_pos hlt]
      simp only [List.mem_cons, ih]
      tauto
    · rw [if_neg hlt]
      simp only [List.mem_cons]

lemma mem_sortGamesDesc {x : Game} : ∀ {l : List Game},
    x ∈ sortGamesDesc l → x ∈ l := by
  intro l
  induction l with
  | nil => exact fun h => h
  | cons g t ih =>
    intro hx
    rw [sortGamesDesc, List.foldr_cons] at hx
    rcases mem_insertGameDesc.mp hx with h | h
    · exact h ▸ List.mem_cons_self g t
    · exact List.mem_cons_of_mem g (ih h)

lemma pairwise_insertGameDesc {g : Game} : ∀ {l : List Game},
    List.Pairwise (fun a b => b.total ≤ a.total) l →
    List.Pairwise (fun a b => b.total ≤ a.total) (insertGameDesc g l) := by
  intro l
  induction l with
  | nil => intro _; simp [insertGameDesc]
  | cons h t ih =>
    intro hp
    rw [List.pairwise_cons] at hp
    rw [insertGameDesc]
    by_cases hlt : g.total < h.total
    · rw [if_pos hlt]
      rw [List.pairwise_cons]
      refine ⟨?_, ih hp.2⟩
      intro x hx
      rcases mem_insertGameDesc.mp hx with rfl | hx
      · exact Nat.le_of_lt hlt
      · exact hp.1 x hx
    · rw [if_neg hlt]
      rw [List.pairwise_cons]
      refine ⟨?_, List.pairwise_cons.mpr hp⟩
      intro x hx
      rcases List.mem_cons.mp hx with rfl | hx
      · exact Nat.le_of_not_lt hlt
      · exact Nat.le_trans (hp.1 x hx) (Nat.le_of_not_lt hlt)

lemma pairwise_sortGamesDesc : ∀ (l : List Game),
    List.Pairwise (fun a b => b.total ≤ a.total) (sortGamesDesc l) := by
  intro l
  induction l with
  | nil => exact List.Pairwise.nil
  | cons g t ih =>
    rw [sortGamesDesc, List.foldr_cons]
    exact pairwise_insertGameDesc ih

lemma filter_insertGameDesc (g : Game) (t : Nat) : ∀ (l : List Game),
    (insertGameDesc g l).filter (fun x => x.total == t)
      = (g :: l).filter (fun x => x.total == t) := by
  intro l
  induction l with
  | nil => rfl
  | cons h tl ih =>
    rw [insertGameDesc]
    by_cases hlt : g.total < h.total
    · rw [if_pos hlt]
      by_cases hh : (h.total == t) = true
      · have hg : (g.total == t) = false := by
          rw [beq_iff_eq] at hh
          rw [beq_eq_false_iff_ne]
          omega
        simp [List.filter_cons, ih, hh, hg]
      · simp [List.filter_cons, ih, hh]
    · rw [if_neg hlt]

lemma filter_sortGamesDesc (t : Nat) : ∀ (l : List Game),
    (sortGamesDesc l).filter (fun x => x.total == t)
      = l.filter (fun x => x.total == t) := by
  intro l
  induction l with
  | nil => rfl
  | cons g tl ih =>
    rw [sortGamesDesc] at ih
    rw [sortGamesDesc, List.foldr_cons, filter_insertGameDesc,
      List.filter_cons, List.filter_cons, ih]

/-- C5: for every lookup and schedule, every emitted game's total equals
the sum of its three color counters, and the emitted list is sorted by
total descending with a stable sort: for each total value, the games
carrying it appear in exactly their original schedule order. -/
theorem enriched_games_total_and_stable_sort
    (lookup : String → Option String) (rows : List (String → String)) :
    ((sortGamesDesc (enrichGames lookup rows)).all
        (fun g => g.total == g.navy + g.cb + g.anth)) = true
  ∧ List.Pairwise (fun a b => b.total ≤ a.total)
      (sortGamesDesc (enrichGames lookup rows))
  ∧ ∀ t : Nat,
      (sortGamesDesc (enrichGames lookup rows)).filter (fun g => g.total == t)
        = (enrichGames lookup rows).filter (fun g => g.total == t) := by
  refine ⟨?_, pairwise_sortGamesDesc _, fun t => filter_sortGamesDesc t _⟩
  rw [List.all_eq_true]
  intro g hg
  have hmem : g ∈ enrichGames lookup rows := mem_sortGamesDesc hg
  obtain ⟨r, _, rfl⟩ := List.mem_map.mp hmem
  exact beq_iff_eq.mpr rfl

/-! ## Guardian consolidation (lines 110-147) -/

/-- The derived mother full-name column. -/
def motherCol : String := "Mother\x27s Full Name"

/-- The derived father full-name column. -/
def fatherCol : String := "Father\x27s Full Name"

/-- Line 111 + 121-122: `col_map = {c.lower(): c for c in df.columns}` then
`col_map.get(name.lower())`.  With duplicate lowercased headers the later
column overwrites the earlier, hence the LAST matching column wins. -/
def colResolve (origCols : List String) (name : String) : Option String :=
  (origCols.filter (fun c => pyToLower c == pyToLower name)).getLast?

/-- Point update of a row (`df.loc[mask, col] = value` at one row). -/
def setVal (r : String → String) (k v : String) : String → String :=
  fun k' => if k' = k then v else r k'

lemma setVal_same (r : String → String) (k v : String) : setVal r k v k = v :=
  if_pos rfl

lemma setVal_other (r : String → String) (k v col : String) (h : col ≠ k) :
    setVal r k v col = r col :=
  if_neg h

/-- `if mom_phone and pg1_phone:` (lines 136, 142): the phone copy happens
only when both the target and the source phone columns resolve. -/
def pairOpt : Option String → Option String → Option (String × String)
  | some a, some b => some (a, b)
  | _, _ => none

/-- Lines 134-137 (resp. 140-143) applied to one row: the mask `empty_mom`
is the stripped target being empty, computed on the incoming row; on masked
rows the stripped source name is written, and, when both phone columns
resolve, the stripped source phone; unmasked rows are untouched. -/
def fillRow (target src : String) (pp : Option (String × String))
    (r : String → String) : String → String :=
  if pyStrip (r target) = "" then
    match pp with
    | some (pt, ps) => setVal (setVal r target (pyStrip (r src))) pt (pyStrip (r ps))
    | none => setVal r target (pyStrip (r src))
  else r

/-- One guardian-slot fill over all rows (columns unchanged). -/
def fillSlot (df : Df) (target src : String) (pp : Option (String × String)) : Df :=
  ⟨df.cols, df.rows.map (fillRow target src pp)⟩

/-- Line 146: `df.drop(columns=drop_cols, errors="ignore")`. -/
def dropCols (df : Df) (dropped : List String) : Df :=
  ⟨df.cols.filter (fun c => decide (c ∉ dropped)), df.rows⟩

/-- Lines 131-137: the mother slot, guarded by the presence of the derived
column. -/
def motherStage (p1 : String) (momp pg1p : Option String) (df : Df) : Df :=
  if motherCol ∈ df.cols then fillSlot df motherCol p1 (pairOpt momp pg1p) else df

/-- Lines 139-143: the father slot, guarded by the resolution of
Parent/Guardian 2 Name and the presence of the derived column. -/
def fatherStage (pg2n dadp pg2p : Option String) (df1 : Df) : Df :=
  match pg2n with
  | some p2 =>
    if fatherCol ∈ df1.cols then fillSlot df1 fatherCol p2 (pairOpt dadp pg2p)
    else df1
  | none => df1

/-- Lines 131-147 given the six resolved columns: nothing at all happens
unless Parent/Guardian 1 Name resolves; then the two slots run in sequence
and the resolved Parent/Guardian columns are dropped. -/
def consolidateCore (pg1n pg1p pg2n pg2p momp dadp : Option String) (df : Df) : Df :=
  match pg1n with
  | none => df
  | some p1 =>
    dropCols (fatherStage pg2n dadp pg2p (motherStage p1 momp pg1p df))
      ([some p1, pg1p, pg2n, pg2p].filterMap id)

/-- The guardian-consolidation block (lines 110-147): resolve the six
source columns through the original header map, then run the core. -/
def consolidateGuardians (origCols : List String) (df : Df) : Df :=
  consolidateCore
    (colResolve origCols "Parent/Guardian 1 Name")
    (colResolve origCols "Parent/Guardian 1 Phone")
    (colResolve origCols "Parent/Guardian 2 Name")
    (colResolve origCols "Parent/Guardian 2 Phone")
    (colResolve origCols "Mother\x27s Mobile Phone")
    (colResolve origCols "Father\x27s Mobile Phone")
    df

/-- The no-overwrite relation between an input row and its output row:
non-empty mother/father full-name targets are left unchanged. -/
def preservesTargets (r r' : String → String) : Prop :=
    (pyStrip (r motherCol) ≠ "" → r' motherCol = r motherCol)
  ∧ (pyStrip (r fatherCol) ≠ "" → r' fatherCol = r fatherCol)

lemma getLast?_mem {α : Type} {l : List α} {a : α} (h : l.getLast? = some a) :
    a ∈ l := by
  rcases List.mem_getLast?_eq_getLast (Option.mem_def.mpr h) with ⟨hne, rfl⟩
  exact List.getLast_mem hne

lemma colResolve_lower {origCols : List String} {name c : String}
    (h : colResolve origCols name = some c) :
    pyToLower c = pyToLower name := by
  have hm := getLast?_mem h
  rw [List.mem_filter] at hm
  exact beq_iff_eq.mp hm.2

lemma fillRow_nonempty_target {target src : String} {pp : Option (String × String)}
    {r : String → String} (h : pyStrip (r target) ≠ "") :
    fillRow target src pp r = r := by
  rw [fillRow.eq_def, if_neg h]

lemma fillRow_other_col (target src : String) (pp : Option (String × String))
    (r : String → String) (col : String) (h1 : col ≠ target)
    (h2 : ∀ pt ps, pp = some (pt, ps) → col ≠ pt) :
    fillRow target src pp r col = r col := by
  by_cases he : pyStrip (r target) = ""
  · cases pp with
    | none =>
      show (if pyStrip (r target) = ""
        then setVal r target (pyStrip (r src)) else r) col = r col
      rw [if_pos he]
      exact setVal_other _ _ _ _ h1
    | some p =>
      obtain ⟨pt, ps⟩ := p
      show (if pyStrip (r target) = ""
        then setVal (setVal r target (pyStrip (r src))) pt (pyStrip (r ps))
        else r) col = r col
      rw [if_pos he, setVal_other _ _ _ _ (h2 pt ps rfl)]
      exact setVal_other _ _ _ _ h1
  · rw [fillRow_nonempty_target he]

lemma preservesTargets_trans {r r' r'' : String → String}
    (h1 : preservesTargets r r') (h2 : preservesTargets r' r'') :
    preservesTargets r r'' := by
  constructor
  · intro hm
    rw [h2.1 (by rw [h1.1 hm]; exact hm), h1.1 hm]
  · intro hf
    rw [h2.2 (by rw [h1.2 hf]; exact hf), h1.2 hf]

lemma forall₂_trans_preserves : ∀ {l1 l2 l3 : List (String → String)},
    List.Forall₂ preservesTargets l1 l2 → List.Forall₂ preservesTargets l2 l3 →
    List.Forall₂ preservesTargets l1 l3 := by
  intro l1 l2 l3 h12
  induction h12 generalizing l3 with
  | nil =>
    intro h23
    cases h23
    exact List.Forall₂.nil
  | cons h hs ih =>
    intro h23
    cases h23 with
    | cons h' hs' => exact List.Forall₂.cons (preservesTargets_trans h h') (ih hs')

lemma motherCol_ne_fatherCol : fatherCol ≠ motherCol := by decide

lemma preserves_fillMother (p1 : String) (pp : Option (String × String))
    (hpp : ∀ pt ps, pp = some (pt, ps) → fatherCol ≠ pt)
    (r : String → String) :
    preservesTargets r (fillRow motherCol p1 pp r) := by
  constructor
  · intro hm
    rw [fillRow_nonempty_target hm]
  · intro _
    exact fillRow_other_col motherCol p1 pp r fatherCol motherCol_ne_fatherCol hpp

lemma preserves_fillFather (p2 : String) (pp : Option (String × String))
    (hpp : ∀ pt ps, pp = some (pt, ps) → motherCol ≠ pt)
    (r : String → String) :
    preservesTargets r (fillRow fatherCol p2 pp r) := by
  constructor
  · intro _
    exact fillRow_other_col fatherCol p2 pp r motherCol
      (by decide) hpp
  · intro hf
    rw [fillRow_nonempty_target hf]

lemma forall₂_preserves_map {rows : List (String → String)}
    {f : (String → String) → String → String}
    (h : ∀ r, preservesTargets r (f r)) :
    List.Forall₂ preservesTargets rows (rows.map f) := by
  rw [List.forall₂_map_right_iff]
  exact List.forall₂_same.mpr (fun r _ => h r)

lemma forall₂_preserves_refl (rows : List (String → String)) :
    List.Forall₂ preservesTargets rows rows :=
  List.forall₂_same.mpr (fun _ _ => ⟨fun _ => rfl, fun _ => rfl⟩)

lemma motherStage_preserves (p1 : String) (momp pg1p : Option String) (df : Df)
    (hmom : ∀ c, momp = some c → pyToLower c = pyToLower "Mother\x27s Mobile Phone") :
    List.Forall₂ preservesTargets df.rows (motherStage p1 momp pg1p df).rows := by
  rw [motherStage]
  by_cases hm : motherCol ∈ df.cols
  · rw [if_pos hm]
    refine forall₂_preserves_map (preserves_fillMother p1 _ ?_)
    intro pt ps hpair
    cases hmo : momp with
    | none => rw [hmo] at hpair; cases hpair
    | some m =>
      cases hp1 : pg1p with
      | none => rw [hmo, hp1] at hpair; cases hpair
      | some q =>
        rw [hmo, hp1] at hpair
        injection hpair with hpr
        have hptm : pt = m := (congrArg Prod.fst hpr).symm
        subst hptm
        intro hfm
        have := hmom pt (by rw [hmo])
        rw [← hfm] at this
        exact absurd this (by decide)
  · rw [if_neg hm]
    exact forall₂_preserves_refl _

lemma fatherStage_preserves (pg2n dadp pg2p : Option String) (d : Df)
    (hdad : ∀ c, dadp = some c → pyToLower c = pyToLower "Father\x27s Mobile Phone") :
    List.Forall₂ preservesTargets d.rows (fatherStage pg2n dadp pg2p d).rows := by
  cases pg2n with
  | none => exact forall₂_preserves_refl _
  | some p2 =>
    show List.Forall₂ preservesTargets d.rows
      (if fatherCol ∈ d.cols then fillSlot d fatherCol p2 (pairOpt dadp pg2p)
        else d).rows
    by_cases hf : fatherCol ∈ d.cols
    · rw [if_pos hf]
      refine forall₂_preserves_map (preserves_fillFather p2 _ ?_)
      intro pt ps hpair
      cases hda : dadp with
      | none => rw [hda] at hpair; cases hpair
      | some m =>
        cases hp2 : pg2p with
        | none => rw [hda, hp2] at hpair; cases hpair
        | some q =>
          rw [hda, hp2] at hpair
          injection hpair with hpr
          have hptm : pt = m := (congrArg Prod.fst hpr).symm
          subst hptm
          intro hmm
          have := hdad pt (by rw [hda])
          rw [← hmm] at this
          exact absurd this (by decide)
    · rw [if_neg hf]
      exact forall₂_preserves_refl _

lemma dropCols_not_mem (df : Df) (dropped : List String) (c : String)
    (h : c ∈ dropped) : c ∉ (dropCols df dropped).cols := by
  intro hc
  rw [dropCols] at hc
  rw [List.mem_filter] at hc
  exact (of_decide_eq_true hc.2) h

/-- Concrete columns for the C4 counterexample: a Parent/Guardian 2 Name
column and an (empty) Father full-name column, but NO Parent/Guardian 1
columns. -/
def c4cols : List String := ["Parent/Guardian 2 Name", "Father\x27s Full Name"]

/-- The C4 counterexample row: a guardian name in slot 2, empty father
target. -/
def c4row : String → String := fun c =>
  if c = "Parent/Guardian 2 Name" then "Bob Jones" else ""

/-- The C4 counterexample table. -/
def c4df : Df := ⟨c4cols, [c4row]⟩

/-- C4 counterexample: with only slot-2 guardian columns present (no
Parent/Guardian 1 Name), the consolidation does nothing: the empty Father
full-name target stays empty even though Parent/Guardian 2 Name holds a
name, and the Parent/Guardian 2 columns are NOT dropped — the father slot
is not evaluated independently of slot 1, and the source columns are not
unconditionally dropped. -/
theorem guardian_fallback_not_independent :
    consolidateGuardians c4cols c4df = c4df
  ∧ pyStrip (c4row fatherCol) = ""
  ∧ c4row "Parent/Guardian 2 Name" = "Bob Jones"
  ∧ "Parent/Guardian 2 Name" ∈ (consolidateGuardians c4cols c4df).cols := by
  refine ⟨by with_unfolding_all rfl, by decide, rfl, ?_⟩
  rw [show consolidateGuardians c4cols c4df = c4df from by with_unfolding_all rfl]
  decide

/-- C4 amended: the guardian fallback block runs only when the
Parent/Guardian 1 Name column resolves (otherwise the table is returned
unchanged: no fill, no drop); when it runs, each slot only fills rows whose
target full-name is empty and never overwrites a non-empty target (mother
from slot 1, father from slot 2, the father slot additionally requiring
Parent/Guardian 2 Name to resolve), phones are copied only when both phone
columns resolve, and every RESOLVED Parent/Guardian source column is
dropped afterwards whether or not it was used. -/
theorem guardian_fallback_amended (origCols : List String) (df : Df) :
    (colResolve origCols "Parent/Guardian 1 Name" = none →
      consolidateGuardians origCols df = df)
  ∧ List.Forall₂ preservesTargets df.rows (consolidateGuardians origCols df).rows
  ∧ (∀ p1, colResolve origCols "Parent/Guardian 1 Name" = some p1 →
      ∀ c ∈ ([some p1,
              colResolve origCols "Parent/Guardian 1 Phone",
              colResolve origCols "Parent/Guardian 2 Name",
              colResolve origCols "Parent/Guardian 2 Phone"].filterMap id),
        c ∉ (consolidateGuardians origCols df).cols) := by
  refine ⟨?_, ?_, ?_⟩
  · intro h
    rw [consolidateGuardians, h]
    rfl
  · cases hp : colResolve origCols "Parent/Guardian 1 Name" with
    | none =>
      rw [consolidateGuardians, hp]
      exact forall₂_preserves_refl _
    | some p1 =>
      rw [consolidateGuardians, hp]
      show List.Forall₂ preservesTargets df.rows
        (dropCols (fatherStage _ _ _ (motherStage p1 _ _ df)) _).rows
      have h1 := motherStage_preserves p1
        (colResolve origCols "Mother\x27s Mobile Phone")
        (colResolve origCols "Parent/Guardian 1 Phone") df
        (fun c hc => colResolve_lower hc)
      have h2 := fatherStage_preserves
        (colResolve origCols "Parent/Guardian 2 Name")
        (colResolve origCols "Father\x27s Mobile Phone")
        (colResolve origCols "Parent/Guardian 2 Phone")
        (motherStage p1 (colResolve origCols "Mother\x27s Mobile Phone")
          (colResolve origCols "Parent/Guardian 1 Phone") df)
        (fun c hc => colResolve_lower hc)
      exact forall₂_trans_preserves h1 h2
  · intro p1 hp1 c hc
    rw [consolidateGuardians, hp1]
    exact dropCols_not_mem _ _ c hc

theorem guardian_fallback_amended_witness :
    "Parent/Guardian 2 Name" ∉ (consolidateGuardians
      ["Parent/Guardian 1 Name", "Parent/Guardian 2 Name", "Father\x27s Full Name"]
      ⟨["Parent/Guardian 1 Name", "Parent/Guardian 2 Name", "Father\x27s Full Name"],
        [c4row]⟩).cols :=
  (guardian_fallback_amended
    ["Parent/Guardian 1 Name", "Parent/Guardian 2 Name", "Father\x27s Full Name"]
    ⟨["Parent/Guardian 1 Name", "Parent/Guardian 2 Name", "Father\x27s Full Name"],
      [c4row]⟩).2.2
    "Parent/Guardian 1 Name" (by with_unfolding_all rfl)
    "Parent/Guardian 2 Name" (by decide)

end CoachTy
